import Mathlib

/-!
Verification of the SQL-dump parsing/tokenizing/batching engine of this
repository against its natural-language specification.

The Python sources embedded here (shallowly, over `List Char` / `String`)
are:
  * `file_sql_adapter.py` : `_robust_read_text`, `_split_sql_statements`,
    `_parse_single_record`, `_clean_value`, the record-building loop of
    `_process_sql_file`, `_get_field_mapping`;
  * `scripts/mysql_auto_importer.py` : `SQLParser.parse_file`,
    `SQLParser.optimize_insert`;
  * `scripts/sql_smart_importer.py` : `SQLParser.clean_value` and
    `SQLParser.parse_single_record` (textually identical to the
    `file_sql_adapter.py` versions), `robust_read_text` (identical).

Python strings are modelled as Lean `String` / `List Char`; Python byte
buffers as `List Nat` (each entry < 256); Python `None | str | int | float`
dynamic values as the sum type `PyValue` (a `float` carries the literal
token text, since no theorem below depends on float arithmetic);
`try/except` as `Option`-valued parsers.
-/

/-! ## Python string helpers -/

/-- Python whitespace test (`str.isspace` on the ASCII range; `str.strip`
and `\s` in `re` strip/match exactly these characters on ASCII input). -/
def pyIsSpace (c : Char) : Bool :=
  c == ' ' || c == '\t' || c == '\n' || c == '\r' || c == '\x0b' || c == '\x0c'

/-- Python `str.strip()` on a character list. -/
def pyStripL (cs : List Char) : List Char :=
  ((cs.dropWhile pyIsSpace).reverse.dropWhile pyIsSpace).reverse

/-- Python `str.strip()`. -/
def pyStrip (s : String) : String :=
  String.mk (pyStripL s.data)

/-- Python `str.lower()` (ASCII; non-ASCII characters in the inputs of this
repository are CJK, which `lower` leaves unchanged, as does `Char.toLower`). -/
def pyLowerL (cs : List Char) : List Char :=
  cs.map Char.toLower

/-- Python `str.upper()` (ASCII, as for `pyLowerL`). -/
def pyUpperL (cs : List Char) : List Char :=
  cs.map Char.toUpper

/-- Python `str.startswith` on character lists: `startsL pat s`. -/
def startsL : List Char → List Char → Bool
  | [], _ => true
  | _ :: _, [] => false
  | p :: ps, c :: cs => p == c && startsL ps cs

/-- Python `str.endswith` on character lists: `endsL pat s`. -/
def endsL (pat s : List Char) : Bool :=
  startsL pat.reverse s.reverse

/-! ## Python dynamic values -/

/-- The dynamic value type produced by the repository's value coercers:
Python `None`, `str`, `int` or `float`.  A `float` carries the literal
token text it was parsed from (no theorem below inspects float arithmetic). -/
inductive PyValue where
  | none
  | str (s : String)
  | int (n : Int)
  | float (s : String)
deriving Repr, DecidableEq

/-- The spec's `TypedValue` tagged union (spec section 3):
`Null | Text | Number | DateLiteral | Raw`, with `Number` split into its
integer and float cases as the code distinguishes them. -/
inductive TypedValue where
  | Null
  | Text (s : String)
  | NumInt (n : Int)
  | NumFloat (s : String)
  | DateLiteral (s : String)
  | Raw (s : String)
deriving Repr, DecidableEq

/-- The spec's `TypedValue` is a tagged view of the code's dynamic value:
in the Python sources rules 2, 3, 5 and 6 of the coercer all return a plain
`str`, so `Text`, `DateLiteral` and `Raw` all erase to `PyValue.str`. -/
def eraseTV : TypedValue → PyValue
  | TypedValue.Null => PyValue.none
  | TypedValue.Text s => PyValue.str s
  | TypedValue.NumInt n => PyValue.int n
  | TypedValue.NumFloat s => PyValue.float s
  | TypedValue.DateLiteral s => PyValue.str s
  | TypedValue.Raw s => PyValue.str s

/-! ## Python numeric literal parsing (`int(...)` / `float(...)`) -/

/-- Continue a digit run: digits, with single underscores allowed between
digits (Python numeric-literal underscore rule), accumulating the value. -/
def digitsValAux : Nat → List Char → Option Nat
  | acc, [] => some acc
  | acc, c :: cs =>
    if c.isDigit then digitsValAux (acc * 10 + (c.toNat - '0'.toNat)) cs
    else if c == '_' then
      match cs with
      | c2 :: cs2 =>
        if c2.isDigit then digitsValAux (acc * 10 + (c2.toNat - '0'.toNat)) cs2
        else Option.none
      | [] => Option.none
    else Option.none

/-- A nonempty digit run (single underscores allowed between digits, none
leading or trailing), with its value; `Option.none` on any other shape. -/
def digitsVal : List Char → Option Nat
  | [] => Option.none
  | c :: cs => if c.isDigit then digitsValAux (c.toNat - '0'.toNat) cs else Option.none

/-- Python `int(s)` on an already-stripped string: optional sign, then a
digit run (ASCII digits; Python additionally accepts non-ASCII decimal
digits, which this repository's inputs do not contain). -/
def pyIntParse : List Char → Option Int
  | '+' :: r => (digitsVal r).map (fun n => (n : Int))
  | '-' :: r => (digitsVal r).map (fun n => -(n : Int))
  | cs => (digitsVal cs).map (fun n => (n : Int))

/-- Exponent suffix acceptance for Python `float(s)`: empty, or `e`/`E`,
an optional sign and a digit run consuming the rest of the string. -/
def expOk : List Char → Bool
  | [] => true
  | c :: r =>
    if c == 'e' || c == 'E' then
      match r with
      | '+' :: t => (digitsVal t).isSome
      | '-' :: t => (digitsVal t).isSome
      | t => (digitsVal t).isSome
    else false

/-- Does Python `float(s)` accept the (already-stripped) string?  Grammar:
optional sign, then `D [. [D]] | . D`, then an optional exponent, where `D`
is a digit run with Python's underscore rule.  (`inf` / `nan` are also
accepted by Python but contain no `.`, and the coercer only attempts
`float` on tokens containing `.`.) -/
def pyFloatAccepts (cs0 : List Char) : Bool :=
  let cs := match cs0 with
    | '+' :: r => r
    | '-' :: r => r
    | r => r
  let isDigU : Char → Bool := fun c => c.isDigit || c == '_'
  let ip := cs.takeWhile isDigU
  let r1 := cs.dropWhile isDigU
  match r1 with
  | '.' :: r2 =>
    let fp := r2.takeWhile isDigU
    let r3 := r2.dropWhile isDigU
    (if ip.isEmpty then !fp.isEmpty && (digitsVal fp).isSome
     else (digitsVal ip).isSome && (fp.isEmpty || (digitsVal fp).isSome))
      && expOk r3
  | r1' => !ip.isEmpty && (digitsVal ip).isSome && expOk r1'

/-! ## Value Coercer -/

/-- Embedding of `re.search(r"'([^']+)'", value)`: the first single-quoted
nonempty substring, scanning left to right; a quote followed immediately by
another quote fails at that position and the scan resumes at the next
character, exactly as `re.search` retries at successive start positions. -/
def findQuoted : List Char → Option (List Char)
  | [] => Option.none
  | c :: rest =>
    if c == '\'' then
      let run := rest.takeWhile (fun c2 => c2 != '\'')
      let r2 := rest.dropWhile (fun c2 => c2 != '\'')
      match r2 with
      | '\'' :: _ => if run.isEmpty then findQuoted rest else some run
      | _ => Option.none
    else findQuoted rest

/-- The tail of `_clean_value` past the numeric attempts (lines 276-281 of
`file_sql_adapter.py`): the `DATE`/`TIMESTAMP` date-literal extraction,
falling through to returning the (stripped) token itself. -/
def cleanDateRaw (v : List Char) : PyValue :=
  if startsL "DATE".data (pyUpperL v) || startsL "TIMESTAMP".data (pyUpperL v) then
    match findQuoted v with
    | some run => PyValue.str (String.mk run)
    | Option.none => PyValue.str (String.mk v)
  else PyValue.str (String.mk v)

/-- Embedding of `FileSQLAdapter._clean_value` (`file_sql_adapter.py` lines
249-281), textually identical to `SQLParser.clean_value`
(`sql_smart_importer.py` lines 121-154): strip, then the ordered rules
NULL / `N'` prefix / quoted string / number (`float` when the token
contains `.`, else `int`, failures falling through) / date literal / raw
fall-through.  Python's `value[2:-1]` is `drop 2` then `dropLast`,
`value[1:-1]` is `drop 1` then `dropLast`. -/
def cleanValueL (v : List Char) : PyValue :=
  if pyLowerL v = "null".data then PyValue.none
  else if startsL "N'".data v || startsL "n'".data v then
    PyValue.str (String.mk (if endsL "'".data v then (v.drop 2).dropLast else v.drop 2))
  else if startsL "'".data v && endsL "'".data v then
    PyValue.str (String.mk (v.drop 1).dropLast)
  else if v.contains '.' then
    (if pyFloatAccepts v then PyValue.float (String.mk v) else cleanDateRaw v)
  else
    match pyIntParse v with
    | some n => PyValue.int n
    | Option.none => cleanDateRaw v

/-- The coercer on a `String` token: `value = value.strip()` first, as in
the source. -/
def clean_value (value0 : String) : PyValue :=
  cleanValueL (pyStripL value0.data)

/-- Modelled from the spec's wording of coercion rules 5-6 (spec section
4.5): a token whose uppercased form starts with `DATE` or `TIMESTAMP` and
contains a single-quoted substring yields that substring as `DateLiteral`;
otherwise the token falls through to `Raw` unchanged. -/
def coerceSpecDate (v : List Char) : TypedValue :=
  if startsL "DATE".data (pyUpperL v) || startsL "TIMESTAMP".data (pyUpperL v) then
    match findQuoted v with
    | some run => TypedValue.DateLiteral (String.mk run)
    | Option.none => TypedValue.Raw (String.mk v)
  else TypedValue.Raw (String.mk v)

/-- Modelled from the spec's ordered coercion rules (spec section 4.5,
claim C5), first match wins, on an already-trimmed token:
1. case-insensitive exact `NULL` yields `Null`;
2. an `N'`/`n'` prefix is stripped together with a trailing single quote
   (if present) yielding `Text`;
3. a token beginning and ending with a single quote has the outer quotes
   stripped yielding `Text`;
4. integer parsing (token without `.`) then float parsing (token with `.`)
   yields `Number`;
5. a `DATE`/`TIMESTAMP`-prefixed token with a single-quoted substring
   yields that substring as `DateLiteral`;
6. otherwise `Raw`, unchanged. -/
def coerceSpecL (v : List Char) : TypedValue :=
  if pyLowerL v = "null".data then TypedValue.Null
  else if startsL "N'".data v || startsL "n'".data v then
    TypedValue.Text (String.mk (if endsL "'".data v then (v.drop 2).dropLast else v.drop 2))
  else if startsL "'".data v && endsL "'".data v then
    TypedValue.Text (String.mk (v.drop 1).dropLast)
  else if v.contains '.' then
    (if pyFloatAccepts v then TypedValue.NumFloat (String.mk v) else coerceSpecDate v)
  else
    match pyIntParse v with
    | some n => TypedValue.NumInt n
    | Option.none => coerceSpecDate v

/-- The spec-worded coercer on a `String` token (the spec's tokens arrive
already trimmed from the Value Tokenizer, spec section 4.4). -/
def coerceSpec (token : String) : TypedValue :=
  coerceSpecL token.data

example : clean_value "NULL" = PyValue.none := by decide
example : clean_value "nUlL" = PyValue.none := by decide
example : clean_value "N'測試'" = PyValue.str "測試" := by decide
example : clean_value "'x'" = PyValue.str "x" := by decide
example : clean_value "42" = PyValue.int 42 := by decide
example : clean_value "-3" = PyValue.int (-3) := by decide
example : clean_value "3.14" = PyValue.float "3.14" := by decide
example : clean_value "DATE '2020-01-01'" = PyValue.str "2020-01-01" := by decide
example : clean_value "abc" = PyValue.str "abc" := by decide
example : clean_value "  abc  " = PyValue.str "abc" := by decide

theorem stringMk_data (s : String) : String.mk s.data = s := rfl

theorem eraseTV_coerceSpecDate (v : List Char) :
    eraseTV (coerceSpecDate v) = cleanDateRaw v := by
  unfold coerceSpecDate cleanDateRaw
  split_ifs with h1
  · cases findQuoted v <;> rfl
  · rfl

/-- The source coercer agrees with the spec-worded coercer (up to the
erasure of the spec's tags to Python's dynamic types) on every token. -/
theorem cleanValueL_refines (v : List Char) :
    cleanValueL v = eraseTV (coerceSpecL v) := by
  unfold cleanValueL coerceSpecL
  split_ifs <;>
    first
      | rfl
      | exact (eraseTV_coerceSpecDate v).symm
      | (cases hq : pyIntParse v <;> simp only [hq] <;>
          first
            | rfl
            | exact (eraseTV_coerceSpecDate v).symm)

/-- On an already-trimmed token the `String`-level coercers agree too. -/
theorem clean_value_refines (v : String) (h : pyStripL v.data = v.data) :
    clean_value v = eraseTV (coerceSpec v) := by
  unfold clean_value coerceSpec
  rw [h, cleanValueL_refines]

/-- No coercion rule of `_clean_value` matches the (already-stripped)
token: not `NULL`, no `N'` prefix, not single-quoted, not numeric
(float when it contains `.`, else int), and not a `DATE`/`TIMESTAMP`
token with a quoted substring. -/
def noRuleMatches (v : List Char) : Bool :=
  !(pyLowerL v == "null".data) &&
  !(startsL "N'".data v || startsL "n'".data v) &&
  !(startsL "'".data v && endsL "'".data v) &&
  (if v.contains '.' then !pyFloatAccepts v else (pyIntParse v).isNone) &&
  !((startsL "DATE".data (pyUpperL v) || startsL "TIMESTAMP".data (pyUpperL v))
      && (findQuoted v).isSome)

theorem cleanDateRaw_raw (v : List Char)
    (h : ((startsL "DATE".data (pyUpperL v) || startsL "TIMESTAMP".data (pyUpperL v))
      && (findQuoted v).isSome) = false) :
    cleanDateRaw v = PyValue.str (String.mk v) := by
  unfold cleanDateRaw
  split_ifs with hg
  · cases hq : findQuoted v
    · rfl
    · rw [hg] at h
      simp [hq] at h
  · rfl

/-- C5 (confirmed): the Value Coercer applies the ordered
first-match-wins rules of spec section 4.5 — the source `_clean_value` /
`clean_value` equals the spec-worded `coerceSpec` (up to erasing the
spec's tags to Python's dynamic types) on every already-trimmed token,
`NULL` in any letter case coerces to `Null`, and `N'測試'` coerces to
`Text("測試")`. -/
theorem C5_coercer_ordered_rules :
    (∀ v : String, pyStripL v.data = v.data → clean_value v = eraseTV (coerceSpec v))
    ∧ clean_value "NULL" = PyValue.none
    ∧ clean_value "null" = PyValue.none
    ∧ clean_value "NuLl" = PyValue.none
    ∧ clean_value "N'測試'" = PyValue.str "測試"
    ∧ coerceSpec "NULL" = TypedValue.Null
    ∧ coerceSpec "N'測試'" = TypedValue.Text "測試" := by
  refine ⟨fun v h => clean_value_refines v h, ?_, ?_, ?_, ?_, ?_, ?_⟩ <;> decide

/-- Witness for C5 at the concrete token `N'測試'`. -/
theorem C5_coercer_ordered_rules_witness :
    pyStripL "N'測試'".data = "N'測試'".data
    ∧ clean_value "N'測試'" = eraseTV (coerceSpec "N'測試'") :=
  ⟨by decide, C5_coercer_ordered_rules.1 "N'測試'" (by decide)⟩

theorem coerceSpecDate_raw (v : List Char)
    (h : ((startsL "DATE".data (pyUpperL v) || startsL "TIMESTAMP".data (pyUpperL v))
      && (findQuoted v).isSome) = false) :
    coerceSpecDate v = TypedValue.Raw (String.mk v) := by
  unfold coerceSpecDate
  split_ifs with hg
  · cases hq : findQuoted v
    · rfl
    · rw [hg] at h
      simp [hq] at h
  · rfl

theorem coerceSpecL_raw (v : List Char) (hnr : noRuleMatches v = true) :
    coerceSpecL v = TypedValue.Raw (String.mk v) := by
  unfold noRuleMatches at hnr
  simp only [Bool.and_eq_true] at hnr
  obtain ⟨⟨⟨⟨h1, h2⟩, h3⟩, h4⟩, h5⟩ := hnr
  rw [Bool.not_eq_true'] at h1 h2 h3 h5
  have n1 : ¬ (pyLowerL v = "null".data) := fun hh => by simp [hh] at h1
  have n2 : ¬ ((startsL "N'".data v || startsL "n'".data v) = true) := fun hh => by
    simp [h2] at hh
  have n3 : ¬ ((startsL "'".data v && endsL "'".data v) = true) := fun hh => by
    simp [h3] at hh
  unfold coerceSpecL
  rw [if_neg n1, if_neg n2, if_neg n3]
  by_cases hdot : v.contains '.' = true
  · rw [if_pos hdot]
    rw [if_pos hdot] at h4
    rw [Bool.not_eq_true'] at h4
    rw [if_neg (by simp [h4])]
    exact coerceSpecDate_raw v h5
  · rw [if_neg hdot]
    rw [if_neg hdot] at h4
    rw [Option.isNone_iff_eq_none.mp h4]
    exact coerceSpecDate_raw v h5

/-- C9 (confirmed): the Value Coercer is total (the embedding returns a
value for every string — the only Python exception sites, `int(...)` and
`float(...)`, are wrapped in `try/except`), and a trimmed token matching
none of the coercion rules falls through to the raw string unchanged
(Python has no tagged union; the `Raw` variant is the plain `str` return
at the end of `_clean_value`). -/
theorem C9_coercer_raw_fallthrough (s : String) (h : pyStripL s.data = s.data)
    (hnr : noRuleMatches s.data = true) :
    clean_value s = PyValue.str s ∧ coerceSpec s = TypedValue.Raw s := by
  have hspec : coerceSpec s = TypedValue.Raw s := by
    unfold coerceSpec
    rw [coerceSpecL_raw s.data hnr, stringMk_data]
  refine ⟨?_, hspec⟩
  rw [clean_value_refines s h, hspec]
  rfl

/-- Witness for C9 at the concrete unmatched token `abc`. -/
theorem C9_coercer_raw_fallthrough_witness :
    (pyStripL "abc".data = "abc".data ∧ noRuleMatches "abc".data = true)
    ∧ clean_value "abc" = PyValue.str "abc" ∧ coerceSpec "abc" = TypedValue.Raw "abc" :=
  ⟨⟨by decide, by decide⟩, C9_coercer_raw_fallthrough "abc" (by decide) (by decide)⟩

/-! ## Value Tokenizer (`_parse_single_record`) -/

/-- Scanner state of `_parse_single_record` (`file_sql_adapter.py` lines
209-217): finished values, the current token accumulated in reverse,
quote state, opening quote character, and parenthesis depth (an `Int`:
a stray `)` drives `paren_depth` below zero in the source, too). -/
structure RecState where
  values : List PyValue
  currentRev : List Char
  inQuotes : Bool
  quoteChar : Option Char
  parenDepth : Int
deriving Repr, DecidableEq

/-- Initial scanner state of `_parse_single_record`. -/
def recInit : RecState :=
  { values := [], currentRev := [], inQuotes := false,
    quoteChar := Option.none, parenDepth := 0 }

/-- One character step of `_parse_single_record` (`file_sql_adapter.py`
lines 218-241, identical to `sql_smart_importer.py` lines 90-113).
`prev` is `record_str[i-1]` (`Option.none` when `i == 0`); the guard
`prev = Option.none ∨ prev ≠ some '\\'` is Python's
`i == 0 or record_str[i-1] != '\\'`. -/
def recStep (st : RecState) (prev : Option Char) (c : Char) : RecState :=
  if (c = '"' ∨ c = '\'') ∧ (prev = Option.none ∨ ¬ prev = some '\\') then
    if st.inQuotes = false then
      { st with inQuotes := true, quoteChar := some c, currentRev := c :: st.currentRev }
    else if some c = st.quoteChar then
      { st with inQuotes := false, quoteChar := Option.none, currentRev := c :: st.currentRev }
    else { st with currentRev := c :: st.currentRev }
  else if c = '(' ∧ st.inQuotes = false then
    { st with parenDepth := st.parenDepth + 1, currentRev := c :: st.currentRev }
  else if c = ')' ∧ st.inQuotes = false then
    { st with parenDepth := st.parenDepth - 1, currentRev := c :: st.currentRev }
  else if c = ',' ∧ st.inQuotes = false ∧ st.parenDepth = 0 then
    { st with
        values := st.values ++ [cleanValueL (pyStripL st.currentRev.reverse)],
        currentRev := [] }
  else { st with currentRev := c :: st.currentRev }

/-- The left-to-right scan of `_parse_single_record`, carrying the
previous character. -/
def recScan : List Char → Option Char → RecState → RecState
  | [], _, st => st
  | c :: rest, prev, st => recScan rest (some c) (recStep st prev c)

/-- Embedding of `FileSQLAdapter._parse_single_record`
(`file_sql_adapter.py` lines 209-247), identical to
`SQLParser.parse_single_record` (`sql_smart_importer.py` lines 80-119):
scan all characters, then append a final value only when the leftover
accumulation strips to something nonempty. -/
def parse_single_record (record_str : String) : List PyValue :=
  let st := recScan record_str.data Option.none recInit
  if pyStripL st.currentRev.reverse = [] then st.values
  else st.values ++ [cleanValueL (pyStripL st.currentRev.reverse)]

example : parse_single_record "1,'x'" = [PyValue.int 1, PyValue.str "x"] := by decide
example : parse_single_record "1, 'a,b' ,2" =
    [PyValue.int 1, PyValue.str "a,b", PyValue.int 2] := by decide
example : parse_single_record "NOW(1,2),3" =
    [PyValue.str "NOW(1,2)", PyValue.int 3] := by decide

/-- C10 (confirmed): in the record value tokenizer a quote immediately
preceded by a backslash never toggles the quote state (it is appended to
the current token as an ordinary character, all other state unchanged),
and a comma scanned while inside a quoted literal never splits the
current token; concretely, in `'a\',b',2` the comma after the
backslash-escaped quote stays inside the first token. -/
theorem C10_backslash_escaped_quote :
    (∀ (st : RecState) (c : Char), c = '"' ∨ c = '\'' →
      recStep st (some '\\') c = { st with currentRev := c :: st.currentRev })
    ∧ (∀ (st : RecState) (prev : Option Char), st.inQuotes = true →
      recStep st prev ',' = { st with currentRev := ',' :: st.currentRev })
    ∧ parse_single_record "'a\\',b',2" = [PyValue.str "a\\',b", PyValue.int 2] := by
  refine ⟨?_, ?_, by decide⟩
  · intro st c hc
    unfold recStep
    rw [if_neg (by rintro ⟨-, h | h⟩ <;> simp at h)]
    rcases hc with h | h <;> subst h
    · rw [if_neg (by rintro ⟨h, -⟩; cases h), if_neg (by rintro ⟨h, -⟩; cases h),
        if_neg (by rintro ⟨h, -, -⟩; cases h)]
    · rw [if_neg (by rintro ⟨h, -⟩; cases h), if_neg (by rintro ⟨h, -⟩; cases h),
        if_neg (by rintro ⟨h, -, -⟩; cases h)]
  · intro st prev hq
    unfold recStep
    rw [if_neg (by rintro ⟨h | h, -⟩ <;> cases h)]
    rw [if_neg (by rintro ⟨h, -⟩; cases h), if_neg (by rintro ⟨h, -⟩; cases h)]
    rw [if_neg (by rintro ⟨-, h, -⟩; rw [hq] at h; cases h)]

/-- Witness for C10: the escaped-quote and in-quote-comma steps at a
concrete scanner state. -/
theorem C10_backslash_escaped_quote_witness :
    ('\'' = '"' ∨ '\'' = '\'')
    ∧ recStep recInit (some '\\') '\'' = { recInit with currentRev := ['\''] }
    ∧ ({ recInit with inQuotes := true } : RecState).inQuotes = true
    ∧ recStep { recInit with inQuotes := true } (some 'x') ','
        = { recInit with inQuotes := true, currentRev := [','] } :=
  ⟨Or.inr rfl,
   C10_backslash_escaped_quote.1 recInit '\'' (Or.inr rfl),
   rfl,
   C10_backslash_escaped_quote.2.1 { recInit with inQuotes := true } (some 'x') rfl⟩

/-! ## Statement Splitter, regex variant (`_split_sql_statements`) -/

/-- Split `cs` at the first occurrence of the two-character pattern
`[a, b]`: `some (before, after)` with the pattern removed, scanning left
to right; `Option.none` when absent. -/
def findSub2 (a b : Char) : List Char → Option (List Char × List Char)
  | [] => Option.none
  | [_] => Option.none
  | c1 :: c2 :: rest =>
    if c1 = a ∧ c2 = b then some ([], rest)
    else
      match findSub2 a b (c2 :: rest) with
      | some (pre, post) => some (c1 :: pre, post)
      | Option.none => Option.none

/-- Embedding of `re.sub(r'/\*.*?\*/', '', text, flags=re.DOTALL)`: each
leftmost `/*` paired with the earliest following `*/` (non-greedy) is
removed and scanning resumes after the removed span, as `re.sub` resumes
at the match end; an unclosed `/*` matches nothing.  Fuel-recursive (each
round removes at least four characters); the wrapper passes enough fuel. -/
def removeBlockCommentsAux : Nat → List Char → List Char
  | 0, cs => cs
  | f + 1, cs =>
    match findSub2 '/' '*' cs with
    | Option.none => cs
    | some (pre, rest) =>
      match findSub2 '*' '/' rest with
      | Option.none => cs
      | some (_, post) => pre ++ removeBlockCommentsAux f post

/-- Embedding of `re.sub(r'--[^\n]*', '', text)`: from each `--` marker
to just before the next newline (or the end), removed, scanning onward. -/
def removeLineCommentsAux : Nat → List Char → List Char
  | 0, cs => cs
  | f + 1, cs =>
    match findSub2 '-' '-' cs with
    | Option.none => cs
    | some (pre, rest) =>
      pre ++ removeLineCommentsAux f (rest.dropWhile (fun c => ¬ c = '\n'))

/-- Embedding of `re.split(r';\s*(?:\n|$)', text)`: a semicolon is a split
point exactly when its following maximal whitespace run contains a newline
or reaches the end of the string.  (The regex consumes that run up to its
last newline; this embedding consumes the whole run — the difference is
leading whitespace of the next part, which `_split_sql_statements` strips
from every part anyway.)  The accumulator holds the current part reversed. -/
def splitSemiAux : Nat → List Char → List Char → List (List Char)
  | 0, acc, _ => [acc.reverse]
  | _ + 1, acc, [] => [acc.reverse]
  | f + 1, acc, ';' :: rest =>
    if (rest.takeWhile pyIsSpace).contains '\n' ∨ rest.dropWhile pyIsSpace = [] then
      acc.reverse :: splitSemiAux f [] (rest.dropWhile pyIsSpace)
    else splitSemiAux f (';' :: acc) rest
  | f + 1, acc, c :: rest => splitSemiAux f (c :: acc) rest

/-- Embedding of `FileSQLAdapter._split_sql_statements`
(`file_sql_adapter.py` lines 157-165): remove block comments, then line
comments, split on semicolon-before-line-end, strip each part and keep
the nonempty ones.  This variant is a plain regex pipeline with no quote
state. -/
def split_sql_statements (text : String) : List String :=
  let no_block := removeBlockCommentsAux (text.data.length + 1) text.data
  let no_comment := removeLineCommentsAux (no_block.length + 1) no_block
  let parts := splitSemiAux (no_comment.length + 1) [] no_comment
  (parts.map (fun p => String.mk (pyStripL p))).filter (fun p => ¬ p = "")

example : split_sql_statements "SELECT 1;\nSELECT 2;" = ["SELECT 1", "SELECT 2"] := by
  decide
example : split_sql_statements "a; b" = ["a; b"] := by decide

/-! ## Statement Splitter, quote-aware variant (`SQLParser.parse_file`) -/

/-- Scanner state of `SQLParser.parse_file` (`mysql_auto_importer.py`
lines 144-147): the current statement accumulated in reverse, the string
state, the opening string character, and the statements yielded so far
(type tag, statement text). -/
structure PFState where
  currentRev : List Char
  inString : Bool
  stringChar : Option Char
  out : List (String × String)
deriving Repr, DecidableEq

/-- Initial state of `parse_file`. -/
def pfInit : PFState :=
  { currentRev := [], inString := false, stringChar := Option.none, out := [] }

/-- Statement-type classification of `parse_file` (`mysql_auto_importer.py`
lines 184-198): by case-insensitive statement head. -/
def pfClassify (sql : List Char) : String :=
  let u := pyUpperL sql
  if startsL "INSERT".data u then "INSERT"
  else if startsL "UPDATE".data u then "UPDATE"
  else if startsL "DELETE".data u then "DELETE"
  else if startsL "CREATE".data u then "CREATE"
  else if startsL "DROP".data u then "DROP"
  else if startsL "ALTER".data u then "ALTER"
  else "OTHER"

/-- The statement-termination block of `parse_file` (`mysql_auto_importer.py`
lines 180-202): strip the accumulated text, yield it with its type when it
is nonempty and not a bare `;`, and reset the accumulator either way. -/
def pfFlush (st : PFState) : PFState :=
  let sql := pyStripL st.currentRev.reverse
  if ¬ sql = [] ∧ ¬ sql = [';'] then
    { st with out := st.out ++ [(pfClassify sql, String.mk sql)], currentRev := [] }
  else { st with currentRev := [] }

/-- One character of the `parse_file` scan (`mysql_auto_importer.py` lines
160-204).  `nxt` is `line[i+1]` within the current line (`Option.none` at
the line end).  The returned `Bool` asks the caller to skip the next
character: on a doubled string character Python does `i += 1`, so of the
pair only the first character is appended.  A semicolon terminates a
statement only in the `not in_string` branch. -/
def pfStep (st : PFState) (c : Char) (nxt : Option Char) : PFState × Bool :=
  if st.inString = false then
    if c = '\'' ∨ c = '"' ∨ c = '`' then
      ({ st with
          inString := true
          stringChar := some c
          currentRev := c :: st.currentRev }, false)
    else if c = ';' then
      (pfFlush { st with currentRev := c :: st.currentRev }, false)
    else ({ st with currentRev := c :: st.currentRev }, false)
  else
    if some c = st.stringChar then
      if nxt = some c then ({ st with currentRev := c :: st.currentRev }, true)
      else ({ st with
          inString := false
          stringChar := Option.none
          currentRev := c :: st.currentRev }, false)
    else ({ st with currentRev := c :: st.currentRev }, false)

/-- Scan one line of `parse_file`, character by character with one-character
lookahead. -/
def pfLine : List Char → PFState → PFState
  | [], st => st
  | [c], st => (pfStep st c Option.none).1
  | c :: c2 :: rest, st =>
    let r := pfStep st c (some c2)
    if r.2 then pfLine rest r.1 else pfLine (c2 :: rest) r.1

/-- Python text-file line iteration: lines keep their trailing newline. -/
def pyLinesKeepAux (acc : List Char) : List Char → List String
  | [] => if acc = [] then [] else [String.mk acc.reverse]
  | '\n' :: rest => String.mk (acc.reverse ++ ['\n']) :: pyLinesKeepAux [] rest
  | c :: rest => pyLinesKeepAux (c :: acc) rest

/-- Per-line dispatch of `parse_file` (`mysql_auto_importer.py` lines
153-156): a line whose stripped text is empty or starts with `--` or `#`
is skipped entirely (regardless of string state), otherwise it is scanned. -/
def pfProcessLine (st : PFState) (line : String) : PFState :=
  let stripped := pyStripL line.data
  if stripped = [] ∨ startsL "--".data stripped ∨ startsL "#".data stripped then st
  else pfLine line.data st

/-- Embedding of `SQLParser.parse_file` (`mysql_auto_importer.py` lines
138-212) on the decoded file content: iterate the lines, then yield any
nonempty leftover as a final `OTHER` statement.  (The source opens the
file with `errors='ignore'`; the embedding takes the decoded text.) -/
def parse_file (content : String) : List (String × String) :=
  let st := (pyLinesKeepAux [] content.data).foldl pfProcessLine pfInit
  if ¬ st.currentRev = [] then
    (if ¬ pyStripL st.currentRev.reverse = [] then
      st.out ++ [("OTHER", String.mk (pyStripL st.currentRev.reverse))]
    else st.out)
  else st.out

example : parse_file "SELECT 1;\nSELECT 2;\n" =
    [("OTHER", "SELECT 1;"), ("OTHER", "SELECT 2;")] := by decide
example : parse_file "INSERT INTO t(a) VALUES ('x''y');\n" =
    [("INSERT", "INSERT INTO t(a) VALUES ('x'y');")] := by decide

/-- C1 (corrected), counterexample: in `_split_sql_statements` a
semicolon inside a single-quoted string is still treated as a statement
terminator whenever a line break follows it — the input
`INSERT INTO t(note) VALUES ('a;\nb');`, whose only unquoted semicolon is
the final one, is split into two statements at the quoted semicolon,
refuting the claim that a semicolon terminates a statement only outside
string literals. -/
theorem C1_counterexample_regex_splitter :
    split_sql_statements "INSERT INTO t(note) VALUES ('a;\nb');"
      = ["INSERT INTO t(note) VALUES ('a", "b')"] := by decide

/-- C1 (corrected, amended): the quote-aware splitter
(`SQLParser.parse_file`) yields a statement at a character only when that
character is a semicolon scanned outside a string literal (its scan step
leaves the output untouched at every other character), and it recognizes
`INSERT INTO t(note) VALUES ('a;b');` as exactly one statement; the
regex-based `_split_sql_statements` also produces exactly one statement
for that particular input (the embedded semicolon is not followed by a
line break), but is not quote-aware in general. -/
theorem C1_amended_quote_aware_terminator :
    (∀ (st : PFState) (c : Char) (nxt : Option Char),
      st.inString = true ∨ ¬ c = ';' → ((pfStep st c nxt).1).out = st.out)
    ∧ parse_file "INSERT INTO t(note) VALUES ('a;b');\n"
        = [("INSERT", "INSERT INTO t(note) VALUES ('a;b');")]
    ∧ split_sql_statements "INSERT INTO t(note) VALUES ('a;b');"
        = ["INSERT INTO t(note) VALUES ('a;b')"] := by
  refine ⟨?_, by decide, by decide⟩
  intro st c nxt h
  unfold pfStep
  rcases h with h | h
  · rw [if_neg (fun hh => by rw [h] at hh; cases hh)]
    split_ifs <;> rfl
  · by_cases hin : st.inString = false
    · rw [if_pos hin]
      split_ifs <;> rfl
    · rw [if_neg hin]
      split_ifs <;> rfl

/-- Witness for the amended C1: the quote-state guard applied at a
concrete in-string scanner state meeting a semicolon. -/
theorem C1_amended_quote_aware_terminator_witness :
    (({ pfInit with inString := true } : PFState).inString = true ∨ ¬ ';' = ';')
    ∧ ((pfStep { pfInit with inString := true } ';' Option.none).1).out
        = ({ pfInit with inString := true } : PFState).out :=
  ⟨Or.inl rfl,
   C1_amended_quote_aware_terminator.1 { pfInit with inString := true } ';'
     Option.none (Or.inl rfl)⟩

/-- C7 (corrected), counterexample: `_split_sql_statements` removes a
block comment whose markers lie entirely inside a single-quoted string
literal — the statement text comes out as `'ac'`, not `'a/*b*/c'`,
refuting the claim that comment markers inside quoted regions are kept. -/
theorem C7_counterexample_comment_in_quotes :
    split_sql_statements "INSERT INTO t(a) VALUES ('a/*b*/c');"
      = ["INSERT INTO t(a) VALUES ('ac')"] := by decide

/-- C7 (corrected, amended): comment stripping in the splitter ignores
quote state entirely — a `--` line-comment marker inside a quoted literal
deletes the rest of the statement, a quoted `/*...*/` span is deleted,
and comments outside quotes are deleted as well (the splitter removes
comments with plain regexes before any quote-aware processing). -/
theorem C7_amended_comment_removal_ignores_quotes :
    split_sql_statements "INSERT INTO t(a) VALUES ('x--y');"
      = ["INSERT INTO t(a) VALUES ('x"]
    ∧ split_sql_statements "INSERT INTO t(a) VALUES ('p/*q*/r');"
      = ["INSERT INTO t(a) VALUES ('pr')"]
    ∧ split_sql_statements "SELECT 1 /*c*/;" = ["SELECT 1"] := by
  exact ⟨by decide, by decide, by decide⟩

/-! ## Batch Materializer (`SQLParser.optimize_insert`) -/

/-- Case-insensitive literal match (regex `re.IGNORECASE` on an ASCII
literal), returning the remainder on success. -/
def caselessLit : List Char → List Char → Option (List Char)
  | [], cs => some cs
  | _ :: _, [] => Option.none
  | l :: ls, c :: cs =>
    if c.toLower = l.toLower then caselessLit ls cs else Option.none

/-- Regex `\s+`: at least one whitespace character, consumed greedily. -/
def ws1 : List Char → Option (List Char)
  | [] => Option.none
  | c :: rest => if pyIsSpace c then some (rest.dropWhile pyIsSpace) else Option.none

/-- Python regex `\w` on ASCII (the repository's table names; Python `str`
patterns additionally accept non-ASCII word characters). -/
def isWordChar (c : Char) : Bool :=
  c.isAlphanum || c == '_'

/-- Embedding of
`re.match(r'INSERT\s+INTO\s+`?(\w+)`?\s*\([^)]+\)\s*VALUES\s*(.+);?$', sql,
re.IGNORECASE | re.DOTALL)` from `optimize_insert`
(`mysql_auto_importer.py` lines 220-227), returning
`(group(1), group(2))`.  The greedy `(.+)` followed by the optional `;?$`
captures everything to the end of the string, so `group(2)` is simply the
rest after `VALUES\s*` (nonempty). -/
def matchOptimizeL (cs : List Char) : Option (String × String) :=
  match caselessLit "INSERT".data cs with
  | Option.none => Option.none
  | some cs1 =>
    match ws1 cs1 with
    | Option.none => Option.none
    | some cs2 =>
      match caselessLit "INTO".data cs2 with
      | Option.none => Option.none
      | some cs3 =>
        match ws1 cs3 with
        | Option.none => Option.none
        | some cs4 =>
          let cs5 := match cs4 with
            | '`' :: r => r
            | r => r
          let tbl := cs5.takeWhile isWordChar
          if tbl.isEmpty then Option.none
          else
            let cs6 := cs5.dropWhile isWordChar
            let cs7 := match cs6 with
              | '`' :: r => r
              | r => r
            match cs7.dropWhile pyIsSpace with
            | '(' :: r =>
              if (r.takeWhile (fun c2 => c2 != ')')).isEmpty then Option.none
              else
                match r.dropWhile (fun c2 => c2 != ')') with
                | ')' :: r2 =>
                  match caselessLit "VALUES".data (r2.dropWhile pyIsSpace) with
                  | Option.none => Option.none
                  | some r4 =>
                    let r5 := r4.dropWhile pyIsSpace
                    if r5.isEmpty then Option.none
                    else some (String.mk tbl, String.mk r5)
                | _ => Option.none
            | _ => Option.none

/-- Embedding of `re.search(r'\(([^)]+)\)', sql).group(0)` from
`optimize_insert` (lines 260-261): the first parenthesized nonempty
`)`-free span, parentheses included. -/
def findParenGroup : List Char → Option (List Char)
  | [] => Option.none
  | c :: rest =>
    if c == '(' then
      match rest.dropWhile (fun c2 => c2 != ')') with
      | ')' :: _ =>
        if (rest.takeWhile (fun c2 => c2 != ')')).isEmpty then findParenGroup rest
        else some ('(' :: rest.takeWhile (fun c2 => c2 != ')') ++ [')'])
      | _ => Option.none
    else findParenGroup rest

/-- Python `str.rstrip(';')`: remove all trailing semicolons. -/
def pyRstripSemis (s : String) : String :=
  String.mk ((s.data.reverse.dropWhile (fun c => c == ';')).reverse)

/-- Scanner state of the `VALUES`-splitting loop of `optimize_insert`
(`mysql_auto_importer.py` lines 230-253): collected raw tuple fragments,
current fragment in reverse, parenthesis counter (`Int`, as a stray `)`
drives it negative in the source too), and string state. -/
structure OIState where
  values : List String
  currentRev : List Char
  paren : Int
  inStr : Bool
deriving Repr, DecidableEq

/-- Initial state of the `VALUES`-splitting loop. -/
def oiInit : OIState :=
  { values := [], currentRev := [], paren := 0, inStr := false }

/-- One character of the `VALUES`-splitting loop of `optimize_insert`
(lines 235-253): classify (quote state honours a backslash before a
quote, via the last accumulated character), append the character, then
flush the fragment when an unquoted `)` returns the counter to zero.
The `continue` after the flush in the source is the last statement of the
loop body, so the separating comma and spaces it was meant to skip are
*not* skipped: they are appended to the start of the next fragment. -/
def oiStep (st : OIState) (c : Char) : OIState :=
  let st1 :=
    if st.inStr = false then
      if c = '(' then { st with paren := st.paren + 1 }
      else if c = ')' then { st with paren := st.paren - 1 }
      else if c = '\'' then { st with inStr := true }
      else st
    else
      if c = '\'' ∧ (st.currentRev = [] ∨ ¬ st.currentRev.head? = some '\\') then
        { st with inStr := false }
      else st
  let st2 := { st1 with currentRev := c :: st1.currentRev }
  if st2.paren = 0 ∧ c = ')' then
    { st2 with
        values := st2.values ++ [String.mk (pyStripL st2.currentRev.reverse)]
        currentRev := [] }
  else st2

/-- The raw tuple fragments collected by `optimize_insert` from the
`VALUES` part (the leftover accumulator after the last `)` is discarded,
as in the source). -/
def splitValuesScan (vp : String) : List String :=
  (vp.data.foldl oiStep oiInit).values

/-- Chunks of at most `B` consecutive elements, mirroring
`values_list[i:i + BATCH_SIZE] for i in range(0, len(values_list),
BATCH_SIZE)` (lines 264-265); fuel-recursive on the list length (each
round consumes at least one element when `B ≥ 1`; `range` with step 0
raises in Python, and every theorem below assumes `1 ≤ B`). -/
def chunksOfAux {α : Type} : Nat → Nat → List α → List (List α)
  | 0, _, _ => []
  | _ + 1, _, [] => []
  | f + 1, B, a :: as => (a :: as).take B :: chunksOfAux f B ((a :: as).drop B)

/-- Chunking with enough fuel. -/
def chunksOf {α : Type} (B : Nat) (l : List α) : List (List α) :=
  chunksOfAux l.length B l

/-- Python `','.join`. -/
def joinComma : List String → String
  | [] => ""
  | [s] => s
  | s :: rest => s ++ "," ++ joinComma rest

/-- Embedding of `SQLParser.optimize_insert` (`mysql_auto_importer.py`
lines 214-270) with the configured `BATCH_SIZE` as the parameter `B`:
a statement that does not match the multi-row `INSERT` pattern, or whose
tuple count is at most `B`, is returned as the single original statement;
otherwise the raw tuple fragments are chunked and each chunk is
re-serialized as ``INSERT INTO `table` (columns) VALUES fragments;``. -/
def optimize_insert (B : Nat) (sql : String) : List String :=
  match matchOptimizeL sql.data with
  | Option.none => [sql]
  | some (table, rest) =>
    let values_list := splitValuesScan (pyRstripSemis rest)
    if values_list.length ≤ B then [sql]
    else
      let columns := match findParenGroup sql.data with
        | some g => String.mk g
        | Option.none => ""
      (chunksOf B values_list).map
        (fun bv =>
          "INSERT INTO `" ++ table ++ "` " ++ columns ++ " VALUES "
            ++ joinComma bv ++ ";")

/-- The record-level (raw-tuple-fragment) view of the batches of
`optimize_insert`: at most `B` tuples means one batch carrying all the
original statement's tuples; more means the chunks of at most `B`. -/
def batchRecords (B : Nat) (vl : List String) : List (List String) :=
  if vl.length ≤ B then [vl] else chunksOf B vl

example : matchOptimizeL "INSERT INTO t (a) VALUES (1),(2),(3);".data
    = some ("t", "(1),(2),(3);") := by decide
example : splitValuesScan "(1),(2),(3)" = ["(1)", ",(2)", ",(3)"] := by decide
example : splitValuesScan "(1), ('a,b'),(2)" = ["(1)", ", ('a,b')", ",(2)"] := by decide
example : optimize_insert 5 "INSERT INTO t (a) VALUES (1),(2),(3);"
    = ["INSERT INTO t (a) VALUES (1),(2),(3);"] := by decide
example : optimize_insert 2 "INSERT INTO t (a) VALUES (1),(2),(3);"
    = ["INSERT INTO `t` (a) VALUES (1),,(2);", "INSERT INTO `t` (a) VALUES ,(3);"] := by
  decide

theorem ceilDivOneBatch (n B : Nat) (h1 : 1 ≤ n) (h2 : n ≤ B) : (n + B - 1) / B = 1 := by
  have hB : 0 < B := by omega
  have a : 1 ≤ (n + B - 1) / B := (Nat.le_div_iff_mul_le hB).mpr (by omega)
  have b : (n + B - 1) / B < 2 := (Nat.div_lt_iff_lt_mul hB).mpr (by omega)
  omega

theorem ceilDivSuccBatch (n B : Nat) (hB : 1 ≤ B) (h : B < n) :
    (n - B + B - 1) / B + 1 = (n + B - 1) / B := by
  have h2 : n - B + B - 1 = n - 1 := by omega
  have h3 : n + B - 1 = (n - 1) + B := by omega
  rw [h2, h3, Nat.add_div_right _ (by omega)]

theorem chunksOfAux_join {α : Type} (B : Nat) (hB : 1 ≤ B) :
    ∀ (f : Nat) (l : List α), l.length ≤ f → (chunksOfAux f B l).flatten = l := by
  intro f
  induction f with
  | zero =>
    intro l hl
    have : l = [] := List.length_eq_zero.mp (Nat.le_zero.mp hl)
    subst this
    rfl
  | succ f ih =>
    intro l hl
    cases l with
    | nil => rfl
    | cons a as =>
      show ((a :: as).take B :: chunksOfAux f B ((a :: as).drop B)).flatten = a :: as
      rw [List.flatten_cons, ih ((a :: as).drop B)
        (by rw [List.length_drop]; simp only [List.length_cons] at hl ⊢; omega)]
      exact List.take_append_drop B (a :: as)

theorem chunksOfAux_le {α : Type} (B : Nat) :
    ∀ (f : Nat) (l : List α), ∀ c ∈ chunksOfAux f B l, c.length ≤ B := by
  intro f
  induction f with
  | zero =>
    intro l c hc
    simp [chunksOfAux] at hc
  | succ f ih =>
    intro l c hc
    cases l with
    | nil => simp [chunksOfAux] at hc
    | cons a as =>
      rcases List.mem_cons.mp hc with h | h
      · subst h
        exact List.length_take_le B (a :: as)
      · exact ih _ c h

theorem chunksOfAux_count {α : Type} (B : Nat) (hB : 1 ≤ B) :
    ∀ (f : Nat) (l : List α), l.length ≤ f → l ≠ [] →
      (chunksOfAux f B l).length = (l.length + B - 1) / B := by
  intro f
  induction f with
  | zero =>
    intro l hl hne
    exact absurd (List.length_eq_zero.mp (Nat.le_zero.mp hl)) hne
  | succ f ih =>
    intro l hl hne
    cases l with
    | nil => exact absurd rfl hne
    | cons a as =>
      show ((a :: as).take B :: chunksOfAux f B ((a :: as).drop B)).length = _
      rw [List.length_cons]
      by_cases hsz : (a :: as).length ≤ B
      · have hdrop : (a :: as).drop B = [] := by
          rw [List.drop_eq_nil_iff]
          exact hsz
        rw [hdrop]
        have hnil : chunksOfAux f B ([] : List α) = [] := by cases f <;> rfl
        rw [hnil]
        have h1 : 1 ≤ (a :: as).length := by simp
        rw [ceilDivOneBatch (a :: as).length B h1 hsz]
        rfl
      · push_neg at hsz
        have hdne : (a :: as).drop B ≠ [] := by
          intro hh
          have h2 : (a :: as).length - B = 0 := by
            rw [← List.length_drop, hh]
            rfl
          omega
        rw [ih ((a :: as).drop B)
          (by rw [List.length_drop]; simp only [List.length_cons] at hl ⊢; omega) hdne]
        rw [List.length_drop]
        exact ceilDivSuccBatch (a :: as).length B hB hsz

/-- C3 (confirmed): for a tuple list of `N ≥ 1` raw records and a
configured batch limit `B ≥ 1`, the Batch Materializer produces exactly
`ceil(N/B) = (N + B - 1) / B` batches, each carrying at most `B` records,
and concatenating the batches' records in emission order reproduces the
original record order exactly (no loss, no reordering, no duplication);
moreover `optimize_insert` emits exactly one statement per such batch
whenever its `INSERT` pattern matches and tokenizes to the given tuple
list. -/
theorem C3_batch_counts (B : Nat) (vl : List String) (hB : 1 ≤ B)
    (hN : 1 ≤ vl.length) :
    (batchRecords B vl).length = (vl.length + B - 1) / B
    ∧ (∀ c ∈ batchRecords B vl, c.length ≤ B)
    ∧ (batchRecords B vl).flatten = vl
    ∧ ∀ (sql table rest : String),
        matchOptimizeL sql.data = some (table, rest) →
        splitValuesScan (pyRstripSemis rest) = vl →
        (optimize_insert B sql).length = (batchRecords B vl).length := by
  have hne : vl ≠ [] := by
    intro h
    subst h
    simp at hN
  refine ⟨?_, ?_, ?_, ?_⟩
  · unfold batchRecords
    split_ifs with h
    · rw [List.length_singleton]
      exact (ceilDivOneBatch vl.length B hN h).symm
    · push_neg at h
      exact chunksOfAux_count B hB vl.length vl le_rfl hne
  · intro c hc
    unfold batchRecords at hc
    split_ifs at hc with h
    · rw [List.mem_singleton] at hc
      subst hc
      exact h
    · exact chunksOfAux_le B vl.length vl c hc
  · unfold batchRecords
    split_ifs with h
    · simp
    · exact chunksOfAux_join B hB vl.length vl le_rfl
  · intro sql table rest hm hs
    simp only [optimize_insert, hm]
    rw [hs]
    unfold batchRecords
    split_ifs with h
    · rfl
    · rw [List.length_map]

/-- Witness for C3 at `B = 2` and the tuple list tokenized from
`INSERT INTO t (a) VALUES (1),(2),(3);`. -/
theorem C3_batch_counts_witness :
    (batchRecords 2 ["(1)", ",(2)", ",(3)"]).length = 2
    ∧ (optimize_insert 2 "INSERT INTO t (a) VALUES (1),(2),(3);").length
        = (batchRecords 2 ["(1)", ",(2)", ",(3)"]).length := by
  have h := C3_batch_counts 2 ["(1)", ",(2)", ",(3)"] (by decide) (by decide)
  refine ⟨?_, h.2.2.2 "INSERT INTO t (a) VALUES (1),(2),(3);" "t" "(1),(2),(3);"
    (by decide) (by decide)⟩
  rw [h.1]
  decide

/-- C4 (code_bug): when the record count is at most the limit, the
Batch Materializer does emit exactly one batch with the original
statement unmodified (first conjunct); but when it re-serializes, the
captured "tuple texts" after the first retain the separating comma —
the `continue` in the source commented `skip comma and spaces` is the
last statement of its loop, so it skips nothing — and the re-serialized
batches read ``VALUES (1),,(2);`` and ``VALUES ,(3);`` instead of the
claimed comma-join of the original tuple texts `(1)`, `(2)`, `(3)`
(second and third conjuncts exhibit the divergence). -/
theorem C4_batch_reserialization_bug :
    optimize_insert 5 "INSERT INTO t (a) VALUES (1),(2),(3);"
      = ["INSERT INTO t (a) VALUES (1),(2),(3);"]
    ∧ optimize_insert 2 "INSERT INTO t (a) VALUES (1),(2),(3);"
      = ["INSERT INTO `t` (a) VALUES (1),,(2);", "INSERT INTO `t` (a) VALUES ,(3);"]
    ∧ splitValuesScan "(1),(2),(3)" = ["(1)", ",(2)", ",(3)"] :=
  ⟨by decide, by decide, by decide⟩

/-! ## Record Emitter (the column-mapping loop of `_process_sql_file`) -/

/-- Embedding of `FileSQLAdapter._get_field_mapping`
(`file_sql_adapter.py` lines 96-142) as an association list in source
order. -/
def field_mapping : List (String × String) :=
  [("supplier_name", "supplier_name"), ("supplier_short", "supplier_short"),
   ("supplier_contact", "supplier_contact"), ("supplier_address", "supplier_address"),
   ("supplier_phone", "supplier_phone"), ("supplier_id", "supplier_id"),
   ("customer_name", "customer_name"), ("customer_short", "customer_short"),
   ("customer_contact", "customer_contact"), ("customer_address", "customer_address"),
   ("customer_phone", "customer_phone"), ("customer_id", "customer_id"),
   ("name", "employee_name"), ("employee_name", "employee_name"),
   ("department_name", "department_name"), ("position", "position"),
   ("employee_id", "employee_id"), ("department_id", "department_id"),
   ("work_order_id", "work_order_id"), ("order_id", "order_id"),
   ("total_amount", "total_amount"), ("currency", "currency"),
   ("work_order_status", "status"), ("status", "status"),
   ("planned_start_date", "planned_start_date"), ("delivery_date", "delivery_date"),
   ("created_time", "created_time"), ("updated_time", "updated_time"),
   ("remark", "remark"), ("address", "address"), ("phone", "phone"),
   ("email", "email")]

/-- Python `dict.get(key, default)` over an association list. -/
def lookupAssoc : List (String × String) → String → Option String
  | [], _ => Option.none
  | (k, v) :: rest, key => if k = key then some v else lookupAssoc rest key

/-- Python `dict[key] = value`: replace the value in place when the key
exists (keys keep their insertion position), otherwise append. -/
def dictInsert : List (String × PyValue) → String → PyValue → List (String × PyValue)
  | [], k, v => [(k, v)]
  | (k', v') :: t, k, v =>
    if k' = k then (k', v) :: t else (k', v') :: dictInsert t k v

/-- The column-mapping loop of `_process_sql_file` (`file_sql_adapter.py`
lines 80-90): for each `(col_idx, column_name)` over the columns, when
`col_idx < len(record_values)` look up the standardized field name for
the cleaned column name and, when the value `is not None`, bind it in the
record dict.  The fixed metadata keys set before this loop (`table_name`,
`source_file`, `record_index`, `updated_at`, `pk`) are not
column-value bindings and are omitted.  Note there is no `else` branch:
a missing or `None` value leaves the field absent, and no diagnostic of
any kind is emitted anywhere in `_process_sql_file`. -/
def buildRecAux (record_values : List PyValue) :
    List String → Nat → List (String × PyValue) → List (String × PyValue)
  | [], _, acc => acc
  | col :: cols, idx, acc =>
    match record_values.get? idx with
    | some v =>
      buildRecAux record_values cols (idx + 1)
        (if v = PyValue.none then acc
         else
           dictInsert acc
             ((lookupAssoc field_mapping
                (String.mk (pyLowerL (pyStripL col.data)))).getD
               (String.mk (pyLowerL (pyStripL col.data))))
             v)
    | Option.none => buildRecAux record_values cols (idx + 1) acc

/-- The column-to-value bindings of one emitted record of
`_process_sql_file`. -/
def buildRecordData (columns : List String) (record_values : List PyValue) :
    List (String × PyValue) :=
  buildRecAux record_values columns 0 []

example : buildRecordData ["a", "b"] [PyValue.str "x", PyValue.int 2]
    = [("a", PyValue.str "x"), ("b", PyValue.int 2)] := by decide
example : buildRecordData ["name"] [PyValue.str "x"]
    = [("employee_name", PyValue.str "x")] := by decide
example : buildRecordData ["a", "b"] [PyValue.str "x", PyValue.none]
    = [("a", PyValue.str "x")] := by decide

theorem dictInsert_length_le (l : List (String × PyValue)) (k : String) (v : PyValue) :
    (dictInsert l k v).length ≤ l.length + 1 := by
  induction l with
  | nil => simp [dictInsert]
  | cons p t ih =>
    obtain ⟨k', v'⟩ := p
    unfold dictInsert
    split_ifs with h
    · simp
    · simpa using Nat.succ_le_succ ih

theorem dictInsert_all (l : List (String × PyValue)) (k : String) (v : PyValue)
    (P : String × PyValue → Bool) (hl : l.all P = true) (hv : P (k, v) = true) :
    (dictInsert l k v).all P = true := by
  induction l with
  | nil => simpa [dictInsert] using hv
  | cons p t ih =>
    obtain ⟨k', v'⟩ := p
    rw [List.all_cons, Bool.and_eq_true] at hl
    unfold dictInsert
    split_ifs with h
    · rw [List.all_cons, Bool.and_eq_true]
      refine ⟨?_, hl.2⟩
      subst h
      exact hv
    · rw [List.all_cons, Bool.and_eq_true]
      exact ⟨hl.1, ih hl.2⟩

theorem buildRecAux_length_le_cols (record_values : List PyValue) :
    ∀ (cols : List String) (idx : Nat) (acc : List (String × PyValue)),
      (buildRecAux record_values cols idx acc).length ≤ acc.length + cols.length := by
  intro cols
  induction cols with
  | nil =>
    intro idx acc
    simp [buildRecAux]
  | cons col cols ih =>
    intro idx acc
    unfold buildRecAux
    cases hv : record_values.get? idx with
    | none =>
      dsimp only
      calc (buildRecAux record_values cols (idx + 1) acc).length
          ≤ acc.length + cols.length := ih (idx + 1) acc
        _ ≤ acc.length + (col :: cols).length := by
            simp only [List.length_cons]
            omega
    | some v =>
      dsimp only
      split_ifs with hn
      · calc (buildRecAux record_values cols (idx + 1) acc).length
            ≤ acc.length + cols.length := ih (idx + 1) acc
          _ ≤ acc.length + (col :: cols).length := by
              simp only [List.length_cons]
              omega
      · calc (buildRecAux record_values cols (idx + 1) (dictInsert acc _ v)).length
            ≤ (dictInsert acc _ v).length + cols.length := ih (idx + 1) _
          _ ≤ (acc.length + 1) + cols.length := by
              have := dictInsert_length_le acc
                ((lookupAssoc field_mapping
                  (String.mk (pyLowerL (pyStripL col.data)))).getD
                  (String.mk (pyLowerL (pyStripL col.data)))) v
              omega
          _ = acc.length + (col :: cols).length := by
              simp only [List.length_cons]
              omega

theorem buildRecAux_length_le_vals (record_values : List PyValue) :
    ∀ (cols : List String) (idx : Nat) (acc : List (String × PyValue)),
      (buildRecAux record_values cols idx acc).length
        ≤ acc.length + (record_values.length - idx) := by
  intro cols
  induction cols with
  | nil =>
    intro idx acc
    simp [buildRecAux]
  | cons col cols ih =>
    intro idx acc
    unfold buildRecAux
    cases hv : record_values.get? idx with
    | none =>
      dsimp only
      calc (buildRecAux record_values cols (idx + 1) acc).length
          ≤ acc.length + (record_values.length - (idx + 1)) := ih (idx + 1) acc
        _ ≤ acc.length + (record_values.length - idx) := by omega
    | some v =>
      dsimp only
      have hidx : idx < record_values.length := by
        by_contra hc
        push_neg at hc
        rw [List.get?_eq_none.mpr hc] at hv
        cases hv
      split_ifs with hn
      · calc (buildRecAux record_values cols (idx + 1) acc).length
            ≤ acc.length + (record_values.length - (idx + 1)) := ih (idx + 1) acc
          _ ≤ acc.length + (record_values.length - idx) := by omega
      · calc (buildRecAux record_values cols (idx + 1) (dictInsert acc _ v)).length
            ≤ (dictInsert acc _ v).length + (record_values.length - (idx + 1)) :=
              ih (idx + 1) _
          _ ≤ acc.length + (record_values.length - idx) := by
              have := dictInsert_length_le acc
                ((lookupAssoc field_mapping
                  (String.mk (pyLowerL (pyStripL col.data)))).getD
                  (String.mk (pyLowerL (pyStripL col.data)))) v
              omega

theorem buildRecAux_all_not_none (record_values : List PyValue) :
    ∀ (cols : List String) (idx : Nat) (acc : List (String × PyValue)),
      acc.all (fun p => p.2 != PyValue.none) = true →
      (buildRecAux record_values cols idx acc).all
        (fun p => p.2 != PyValue.none) = true := by
  intro cols
  induction cols with
  | nil =>
    intro idx acc hacc
    simpa [buildRecAux] using hacc
  | cons col cols ih =>
    intro idx acc hacc
    unfold buildRecAux
    cases hv : record_values.get? idx with
    | none => exact ih (idx + 1) acc hacc
    | some v =>
      dsimp only
      split_ifs with hn
      · exact ih (idx + 1) acc hacc
      · refine ih (idx + 1) _ ?_
        refine dictInsert_all acc _ v _ hacc ?_
        simp only [bne_iff_ne, ne_eq]
        exact hn

/-- C2 (corrected), counterexample: a record with one raw token against
two columns yields a record with one binding, not two — the missing slot
is not filled with `Null`, so the emitted record's value count does not
equal its column count (and `_process_sql_file` contains no diagnostic
emission at all, so no `ColumnValueMismatch` diagnostic accompanies it). -/
theorem C2_counterexample_no_null_padding :
    ¬ (buildRecordData ["a", "b"] [PyValue.str "x"]).length
        = (["a", "b"] : List String).length := by decide

/-- C2 (corrected, amended): the record loop emits at most
`min(#columns, #tokens)` bindings — excess raw tokens beyond the column
count are dropped and the record is still emitted — but a missing slot is
left absent rather than bound to `Null`, `None` values are omitted from
the record (every emitted binding is non-`None`), and no diagnostic is
emitted anywhere in the loop. -/
theorem C2_truncation_without_padding :
    (∀ (cols : List String) (vals : List PyValue),
      (buildRecordData cols vals).length ≤ cols.length)
    ∧ (∀ (cols : List String) (vals : List PyValue),
      (buildRecordData cols vals).length ≤ vals.length)
    ∧ (∀ (cols : List String) (vals : List PyValue),
      (buildRecordData cols vals).all (fun p => p.2 != PyValue.none) = true)
    ∧ buildRecordData ["a"] [PyValue.str "x", PyValue.str "y"]
        = [("a", PyValue.str "x")]
    ∧ buildRecordData ["a", "b"] [PyValue.str "x"] = [("a", PyValue.str "x")] := by
  refine ⟨?_, ?_, ?_, by decide, by decide⟩
  · intro cols vals
    simpa using buildRecAux_length_le_cols vals cols 0 []
  · intro cols vals
    simpa using buildRecAux_length_le_vals vals cols 0 []
  · intro cols vals
    exact buildRecAux_all_not_none vals cols 0 [] (by decide)

/-! ## Encoding Normalizer (`_robust_read_text` / `robust_read_text`) -/

/-- UTF-8 continuation byte. -/
def isCont (b : Nat) : Bool :=
  0x80 ≤ b && b ≤ 0xBF

/-- Admissible first trailing byte after lead `b` (strict UTF-8: rejects
overlong encodings, surrogates and code points above `U+10FFFF`, as
Python's strict `utf-8` codec does). -/
def utf8Trail1Ok (b b2 : Nat) : Bool :=
  if b = 0xE0 then 0xA0 ≤ b2 && b2 ≤ 0xBF
  else if b = 0xED then 0x80 ≤ b2 && b2 ≤ 0x9F
  else if b = 0xF0 then 0x90 ≤ b2 && b2 ≤ 0xBF
  else if b = 0xF4 then 0x80 ≤ b2 && b2 ≤ 0x8F
  else isCont b2

/-- Strict UTF-8 decoding (`bytes.decode('utf-8')`): `Option.none` on
any invalid sequence. -/
def utf8DecodeL : List Nat → Option (List Char)
  | [] => some []
  | b :: rest =>
    if b < 0x80 then (utf8DecodeL rest).map (fun cs => Char.ofNat b :: cs)
    else if 0xC2 ≤ b ∧ b ≤ 0xDF then
      match rest with
      | b2 :: rest2 =>
        if isCont b2 then
          (utf8DecodeL rest2).map
            (fun cs => Char.ofNat ((b - 0xC0) * 0x40 + (b2 - 0x80)) :: cs)
        else Option.none
      | [] => Option.none
    else if (0xE0 ≤ b ∧ b ≤ 0xEF) then
      match rest with
      | b2 :: b3 :: rest3 =>
        if utf8Trail1Ok b b2 && isCont b3 then
          (utf8DecodeL rest3).map
            (fun cs =>
              Char.ofNat ((b - 0xE0) * 0x1000 + (b2 - 0x80) * 0x40 + (b3 - 0x80)) :: cs)
        else Option.none
      | _ => Option.none
    else if (0xF0 ≤ b ∧ b ≤ 0xF4) then
      match rest with
      | b2 :: b3 :: b4 :: rest4 =>
        if utf8Trail1Ok b b2 && isCont b3 && isCont b4 then
          (utf8DecodeL rest4).map
            (fun cs =>
              Char.ofNat ((b - 0xF0) * 0x40000 + (b2 - 0x80) * 0x1000
                + (b3 - 0x80) * 0x40 + (b4 - 0x80)) :: cs)
        else Option.none
      | _ => Option.none
    else Option.none

/-- `bytes.decode('utf-8-sig')`: strip a byte-order mark when present,
then strict UTF-8. -/
def pyUtf8SigDecode : List Nat → Option (List Char)
  | 0xEF :: 0xBB :: 0xBF :: rest => utf8DecodeL rest
  | bs => utf8DecodeL bs

/-- The structure shared by Python's `cp950` and `big5` codecs: bytes
below `0x80` are ASCII; a lead byte in `0x81..0xFE` consumes one trail
byte through the codec's double-byte mapping table (failing when the
table has no entry or the trail byte is missing); any other byte
(`0x80`, `0xFF`) fails.  The many-thousand-entry mapping tables are not
reproduced here: they are a parameter, and every theorem below either
quantifies over the table or relies only on failures forced by this
structure (e.g. on the lead byte `0xFF`), which hold for the real codecs
regardless of table content. -/
def dbcsDecode (tbl : Nat → Nat → Option Char) : List Nat → Option (List Char)
  | [] => some []
  | b :: rest =>
    if b < 0x80 then (dbcsDecode tbl rest).map (fun cs => Char.ofNat b :: cs)
    else if 0x81 ≤ b ∧ b ≤ 0xFE then
      match rest with
      | b2 :: rest2 =>
        match tbl b b2 with
        | some c => (dbcsDecode tbl rest2).map (fun cs => c :: cs)
        | Option.none => Option.none
      | [] => Option.none
    else Option.none

/-- The empty double-byte table (used only to instantiate closed
statements whose truth does not depend on the table, such as decoding
`[0xFF]`). -/
def emptyPairTable : Nat → Nat → Option Char :=
  fun _ _ => Option.none

/-- Strict UTF-16 decoding over a byte-pair-to-code-unit function:
surrogate pairs combined, unpaired surrogates and odd trailing bytes
fail, as Python's strict `utf-16-le`/`utf-16-be` codecs do. -/
def utf16Decode (unit : Nat → Nat → Nat) : List Nat → Option (List Char)
  | [] => some []
  | [_] => Option.none
  | b1 :: b2 :: rest =>
    if unit b1 b2 < 0xD800 ∨ 0xE000 ≤ unit b1 b2 then
      (utf16Decode unit rest).map (fun cs => Char.ofNat (unit b1 b2) :: cs)
    else if unit b1 b2 ≤ 0xDBFF then
      match rest with
      | b3 :: b4 :: rest2 =>
        if 0xDC00 ≤ unit b3 b4 ∧ unit b3 b4 ≤ 0xDFFF then
          (utf16Decode unit rest2).map
            (fun cs =>
              Char.ofNat (0x10000 + (unit b1 b2 - 0xD800) * 0x400
                + (unit b3 b4 - 0xDC00)) :: cs)
        else Option.none
      | _ => Option.none
    else Option.none

/-- `bytes.decode('utf-16le')`. -/
def utf16leDecode : List Nat → Option (List Char) :=
  utf16Decode (fun b1 b2 => b2 * 256 + b1)

/-- `bytes.decode('utf-16be')`. -/
def utf16beDecode : List Nat → Option (List Char) :=
  utf16Decode (fun b1 b2 => b1 * 256 + b2)

/-- `bytes.decode('utf-8', 'ignore')`: decode valid sequences, skip the
maximal valid prefix of an invalid or truncated sequence (one byte for an
invalid start byte) and continue — invalid input is dropped, not
replaced.  Fuel-recursive (every step consumes at least one byte). -/
def utf8DecodeIgnoreAux : Nat → List Nat → List Char
  | 0, _ => []
  | _ + 1, [] => []
  | f + 1, b :: rest =>
    if b < 0x80 then Char.ofNat b :: utf8DecodeIgnoreAux f rest
    else if 0xC2 ≤ b ∧ b ≤ 0xDF then
      match rest with
      | b2 :: rest2 =>
        if isCont b2 then
          Char.ofNat ((b - 0xC0) * 0x40 + (b2 - 0x80)) :: utf8DecodeIgnoreAux f rest2
        else utf8DecodeIgnoreAux f rest
      | [] => []
    else if (0xE0 ≤ b ∧ b ≤ 0xEF) then
      match rest with
      | b2 :: rest2 =>
        if utf8Trail1Ok b b2 then
          match rest2 with
          | b3 :: rest3 =>
            if isCont b3 then
              Char.ofNat ((b - 0xE0) * 0x1000 + (b2 - 0x80) * 0x40 + (b3 - 0x80))
                :: utf8DecodeIgnoreAux f rest3
            else utf8DecodeIgnoreAux f rest2
          | [] => []
        else utf8DecodeIgnoreAux f rest
      | [] => []
    else if (0xF0 ≤ b ∧ b ≤ 0xF4) then
      match rest with
      | b2 :: rest2 =>
        if utf8Trail1Ok b b2 then
          match rest2 with
          | b3 :: rest3 =>
            if isCont b3 then
              match rest3 with
              | b4 :: rest4 =>
                if isCont b4 then
                  Char.ofNat ((b - 0xF0) * 0x40000 + (b2 - 0x80) * 0x1000
                    + (b3 - 0x80) * 0x40 + (b4 - 0x80)) :: utf8DecodeIgnoreAux f rest4
                else utf8DecodeIgnoreAux f rest3
              | [] => []
            else utf8DecodeIgnoreAux f rest2
          | [] => []
        else utf8DecodeIgnoreAux f rest
      | [] => []
    else utf8DecodeIgnoreAux f rest

/-- `bytes.decode('utf-8', 'ignore')` with enough fuel. -/
def utf8DecodeIgnoreL (bs : List Nat) : List Char :=
  utf8DecodeIgnoreAux bs.length bs

/-- Python `s.replace("\r", "")`: remove every carriage return. -/
def pyRemoveCR (s : String) : String :=
  String.mk (s.data.filter (fun c => c != '\r'))

/-- Embedding of `FileSQLAdapter._robust_read_text` (`file_sql_adapter.py`
lines 144-155), textually identical to `robust_read_text`
(`sql_smart_importer.py` lines 350-361): try, in order, UTF-8, UTF-8 with
byte-order mark, cp950, big5, UTF-16 little-endian, UTF-16 big-endian,
returning the first successful decode with all `\r` removed; when every
candidate fails, fall back to `b.decode("utf-8", "ignore")` (invalid
bytes dropped) with `\r` removed.  The cp950 and big5 mapping tables are
parameters (see `dbcsDecode`). -/
def robust_read_text (tbl950 tblBig5 : Nat → Nat → Option Char)
    (bs : List Nat) : String :=
  match utf8DecodeL bs with
  | some cs => pyRemoveCR (String.mk cs)
  | Option.none =>
    match pyUtf8SigDecode bs with
    | some cs => pyRemoveCR (String.mk cs)
    | Option.none =>
      match dbcsDecode tbl950 bs with
      | some cs => pyRemoveCR (String.mk cs)
      | Option.none =>
        match dbcsDecode tblBig5 bs with
        | some cs => pyRemoveCR (String.mk cs)
        | Option.none =>
          match utf16leDecode bs with
          | some cs => pyRemoveCR (String.mk cs)
          | Option.none =>
            match utf16beDecode bs with
            | some cs => pyRemoveCR (String.mk cs)
            | Option.none => pyRemoveCR (String.mk (utf8DecodeIgnoreL bs))

example : utf8DecodeL [0xE6, 0xB8, 0xAC] = some ['測'] := by decide
example : utf8DecodeL [0xC0, 0x80] = Option.none := by decide
example : utf8DecodeL [0xED, 0xA0, 0x80] = Option.none := by decide
example : pyUtf8SigDecode [0xEF, 0xBB, 0xBF, 0x41] = some ['A'] := by decide
example : utf16leDecode [0x41, 0x00] = some ['A'] := by decide
example : utf16leDecode [0x41] = Option.none := by decide
example : utf8DecodeIgnoreL [0x41, 0xFF, 0x42] = ['A', 'B'] := by decide
example : robust_read_text emptyPairTable emptyPairTable
    [0x61, 0x0D, 0x0A, 0x62] = "a\nb" := by decide

theorem pyRemoveCR_no_cr (s : String) :
    (pyRemoveCR s).data.all (fun c => c != '\r') = true := by
  show (s.data.filter (fun c => c != '\r')).all (fun c => c != '\r') = true
  rw [List.all_eq_true]
  intro c hc
  exact (List.mem_filter.mp hc).2

/-- C6 (corrected), counterexample: on the byte `0xFF` every candidate
encoding fails (invalid UTF-8 start byte; not a cp950/big5 lead byte for
any mapping table; odd length for both UTF-16 variants), and the
fallback returns the empty string — the invalid byte is *dropped*
(`errors="ignore"`), not replaced with U+FFFD as the claim's
"invalid sequences replaced" would produce. -/
theorem C6_counterexample_fallback_drops :
    robust_read_text emptyPairTable emptyPairTable [0xFF] = ""
    ∧ ¬ robust_read_text emptyPairTable emptyPairTable [0xFF] = "�" :=
  ⟨by decide, by decide⟩

/-- C6 (corrected, amended): the Encoding Normalizer returns text with
every carriage return removed for every input and any cp950/big5 tables;
when the first candidate (UTF-8) decodes, its result wins; and on the
all-candidates-fail input `[0xFF]` it returns the UTF-8-with-invalid-
bytes-dropped fallback (the empty string), for any tables — i.e. the
fallback ignores rather than replaces invalid sequences, and the
function never fails (it is total by construction). -/
theorem C6_normalizer_order_and_ignore_fallback :
    (∀ (t1 t2 : Nat → Nat → Option Char) (bs : List Nat),
      ((robust_read_text t1 t2 bs).data.all (fun c => c != '\r')) = true)
    ∧ (∀ (t1 t2 : Nat → Nat → Option Char) (bs : List Nat) (cs : List Char),
        utf8DecodeL bs = some cs →
        robust_read_text t1 t2 bs = pyRemoveCR (String.mk cs))
    ∧ (∀ (t1 t2 : Nat → Nat → Option Char),
        robust_read_text t1 t2 [0xFF] = "") := by
  refine ⟨?_, ?_, ?_⟩
  · intro t1 t2 bs
    unfold robust_read_text
    repeat' split
    all_goals exact pyRemoveCR_no_cr _
  · intro t1 t2 bs cs h
    unfold robust_read_text
    rw [h]
  · intro t1 t2
    unfold robust_read_text
    rw [show utf8DecodeL [0xFF] = Option.none from rfl]
    rw [show pyUtf8SigDecode [0xFF] = Option.none from rfl]
    rw [show dbcsDecode t1 [0xFF] = Option.none from rfl]
    rw [show dbcsDecode t2 [0xFF] = Option.none from rfl]
    rw [show utf16leDecode [0xFF] = Option.none from rfl]
    rw [show utf16beDecode [0xFF] = Option.none from rfl]
    decide

/-- Witness for the amended C6: the UTF-8 branch wins at the concrete
byte `0x61`. -/
theorem C6_normalizer_order_and_ignore_fallback_witness :
    utf8DecodeL [0x61] = some ['a']
    ∧ robust_read_text emptyPairTable emptyPairTable [0x61]
        = pyRemoveCR (String.mk ['a']) :=
  ⟨by decide,
   C6_normalizer_order_and_ignore_fallback.2.1 emptyPairTable emptyPairTable
     [0x61] ['a'] (by decide)⟩
